import Mathlib

/- Verification development for the VT_tools repository: a shallow embedding of
the adaptive-smoothing filter (ASM.py) and the virtual-trajectory generator
(virtual_trajectory_generation.py and its duplicate VT.py), with theorems
checking the documented properties against the embedded code.

Numbers are embedded as exact rationals (reals for the transcendental kernel
weights); the scipy cubic interpolator, being external library code, is kept
abstract as a deterministic function of the filtered data and the target. -/

namespace VTTools

/-- Python rounding with zero digits, as used by round(t + update_rate, 0) in
gen_VT: nearest integer, ties resolved to the even integer. -/
def pythonRound (q : ℚ) : ℤ :=
  let f := ⌊q⌋
  let r := q - (f : ℚ)
  if r < 1/2 then f
  else if 1/2 < r then f + 1
  else if 2 ∣ f then f else f + 1

/-- Row of the speed-field DataFrame as read by the trajectory code: columns
t (seconds), x (miles), speed (mph). -/
structure Pt where
  t : ℚ
  x : ℚ
  speed : ℚ
deriving DecidableEq

/-- Row (t, x, speed, v_id) appended to traj by gen_VT. -/
structure Sample where
  time : ℚ
  space : ℚ
  speed : ℚ
  v_id : ℤ
deriving DecidableEq

/-- Abstract model of scipy.interpolate.griddata with the cubic method: a
deterministic function of the (already box-filtered) data points and the
target point.  The library routine is external to this repository, so it is a
parameter; the repository code around it is embedded exactly. -/
abbrev Interp : Type := List Pt → ℚ → ℚ → ℚ

/-- Box restriction inside get_bi_cubic: points with |t' - t| <= 8 and
|x' - x| <= 0.04. -/
def bi_cubic_box (target_time target_space : ℚ) (data : List Pt) : List Pt :=
  data.filter (fun p => decide (|p.t - target_time| ≤ 8 ∧ |p.x - target_space| ≤ 0.04))

/-- Embedding of get_bi_cubic: restrict data to the box around the target and
interpolate there with the (abstract) cubic interpolator g. -/
def get_bi_cubic (g : Interp) (target_time target_space : ℚ) (data : List Pt) : ℚ :=
  g (bi_cubic_box target_time target_space data) target_time target_space

/-- Restriction of the speed field to the sliding window (a, a + 900]: gen_VT
uses start a = t0 - 30 initially and a = t - 30 at a refresh, and the end is
start + 900 in both places. -/
def windowFilter (a : ℚ) (L : List Pt) : List Pt :=
  L.filter (fun p => decide (p.t ≤ a + 900 ∧ a < p.t))

/-- Refresh test (t - 30) % 300 == 0 of gen_VT: the Python modulo of the
(integral-valued) time is zero exactly when (t - 30)/300 is an integer. -/
def isRefresh (t : ℚ) : Bool :=
  decide (t - 30 = 300 * (⌊(t - 30) / 300⌋ : ℚ))

/-- Embedding of the while-loop of gen_VT, with explicit fuel making possible
non-termination visible (none = the loop has not exited within fuel rounds).
State: current time t, position x, current sliding window win, accumulated
trajectory traj. -/
def gen_VT_loop (g : Interp) (L : List Pt) (update_rate : ℚ) (v_id : ℤ) :
    ℕ → ℚ → ℚ → List Pt → List Sample → Option (List Sample)
  | fuel, t, x, win, traj =>
    if x < 4.3 then
      match fuel with
      | 0 => none
      | fuel' + 1 =>
        let speed := get_bi_cubic g t x win
        let x' := x + update_rate * speed / 3600
        let t' : ℚ := ((pythonRound (t + update_rate) : ℤ) : ℚ)
        let win' := if isRefresh t' then windowFilter (t' - 30) L else win
        gen_VT_loop g L update_rate v_id fuel' t' x' win' (traj ++ [⟨t', x', speed, v_id⟩])
    else some traj

/-- Embedding of gen_VT (virtual_trajectory_generation.py lines 36-78 and
VT.py lines 16-34).  In the source update_rate defaults to 1 and x0 to 0.32;
the corridor-length constant in the loop guard is 4.3. -/
def gen_VT (g : Interp) (t0 : ℚ) (v_id : ℤ) (large_speed_field : List Pt)
    (update_rate : ℚ) (x0 : ℚ) (fuel : ℕ) : Option (List Sample) :=
  let ranged_speed_field := windowFilter (t0 - 30) large_speed_field
  let v0 := get_bi_cubic g t0 x0 ranged_speed_field
  gen_VT_loop g large_speed_field update_rate v_id fuel t0 x0 ranged_speed_field
    [⟨t0, x0, v0, v_id⟩]

/-- Modelled from the spec: the full-requery baseline loop of the refinement
claim ("a correct but slower implementation may requery the full field every
step"), identical to the loop of gen_VT except that every interpolation
queries the full speed field instead of the sliding window. -/
def gen_VT_baseline_loop (g : Interp) (L : List Pt) (update_rate : ℚ) (v_id : ℤ) :
    ℕ → ℚ → ℚ → List Sample → Option (List Sample)
  | fuel, t, x, traj =>
    if x < 4.3 then
      match fuel with
      | 0 => none
      | fuel' + 1 =>
        let speed := get_bi_cubic g t x L
        let x' := x + update_rate * speed / 3600
        let t' : ℚ := ((pythonRound (t + update_rate) : ℤ) : ℚ)
        gen_VT_baseline_loop g L update_rate v_id fuel' t' x' (traj ++ [⟨t', x', speed, v_id⟩])
    else some traj

/-- Modelled from the spec: the baseline integrator that requeries the full
SpeedField at every step, including for the initial speed v0. -/
def gen_VT_baseline (g : Interp) (t0 : ℚ) (v_id : ℤ) (large_speed_field : List Pt)
    (update_rate : ℚ) (x0 : ℚ) (fuel : ℕ) : Option (List Sample) :=
  let v0 := get_bi_cubic g t0 x0 large_speed_field
  gen_VT_baseline_loop g large_speed_field update_rate v_id fuel t0 x0
    [⟨t0, x0, v0, v_id⟩]

/-- Window-cache invariant of the loop of gen_VT at update rate 1: the window
start ai lies 30 s before some visited time, the current time ti is at most
330 s past the window start, and no refresh time (an s with s - 30 divisible
by 300) has been passed since the window was set. -/
def WinInv (ti ai : ℤ) : Prop :=
  ai + 30 ≤ ti ∧ ti ≤ ai + 330 ∧ ∀ s : ℤ, ai + 30 < s → s ≤ ti → ¬ (300 : ℤ) ∣ (s - 30)

/-- Embedding of np.arange(start, stop, step) over natural numbers. -/
def arange (start stop step : ℕ) : List ℕ :=
  (List.range ((stop - start + step - 1) / step)).map (fun k => start + k * step)

/-- Spawn times of gen_all_VT: np.arange(30, 30 + 3600 * hour + 1 - 120,
int(frequency)). -/
def spawnTimes (frequency hour : ℕ) : List ℕ :=
  arange 30 (30 + 3600 * hour + 1 - 120) frequency

/-- Python round(q, 2) as used for the update rate round(1 / traj_hz, 2):
round to two decimal digits, ties to even. -/
def pythonRound2 (q : ℚ) : ℚ := (pythonRound (q * 100) : ℚ) / 100

/-- Reorientation smooth_vt.x = 63 - smooth_vt.x applied by gen_all_VT to the
field before integration. -/
def reflectPt (p : Pt) : Pt := ⟨p.t, 63 - p.x, p.speed⟩

/-- Reorientation vt.space = 63 - vt.space applied back to each generated
sample. -/
def reflectSample (s : Sample) : Sample := ⟨s.time, 63 - s.space, s.speed, s.v_id⟩

/-- Spawn loop of gen_all_VT over the remaining spawn times: one gen_VT run
per spawn time with vehicle id int(time / frequency), spaces reflected back;
a non-terminating integration makes the whole fleet generation unavailable. -/
def gen_all_VT_go (g : Interp) (smooth_vt : List Pt) (frequency : ℕ) (u : ℚ) (fuel : ℕ) :
    List ℕ → Option (List (List Sample))
  | [] => some []
  | time :: rest =>
    match gen_VT g (time : ℚ) ((time / frequency : ℕ) : ℤ) smooth_vt u 0.32 fuel with
    | none => none
    | some vt =>
      match gen_all_VT_go g smooth_vt frequency u fuel rest with
      | none => none
      | some vts => some (vt.map reflectSample :: vts)

/-- Embedding of gen_all_VT (virtual_trajectory_generation.py lines 80-115,
VT.py lines 36-48): reorient a private copy of the field by x to 63 - x,
spawn one vehicle per spawn time, integrate it with gen_VT at update rate
round(1 / traj_hz, 2) from the default start 0.32, reflect the spaces back
and concatenate all trajectories. -/
def gen_all_VT (g : Interp) (smooth_speed : List Pt) (frequency hour : ℕ)
    (traj_hz : ℚ) (fuel : ℕ) : Option (List Sample) :=
  let smooth_vt := smooth_speed.map reflectPt
  (gen_all_VT_go g smooth_vt frequency (pythonRound2 (1 / traj_hz)) fuel
      (spawnTimes frequency hour)).map List.flatten

/-- Free-flow kernel weight of ASM.py (lines 15-45); the characteristic
free-flow speed c_free defaults to -43 in the source. -/
noncomputable def beta_free_flow (x t x_s t_s x_win t_win c_free : ℝ) : ℝ :=
  let dt := t - t_s - 3600 * (x - x_s) / c_free
  let dx := x - x_s
  Real.exp (-(2 * |dx| / x_win + 2 * |dt| / t_win))

/-- Congested-flow kernel weight of ASM.py (lines 48-77); the characteristic
wave speed c_cong defaults to 13 in the source. -/
noncomputable def beta_cong_flow (x t x_s t_s x_win t_win c_cong : ℝ) : ℝ :=
  let dt := t - t_s - 3600 * (x - x_s) / c_cong
  let dx := x - x_s
  Real.exp (-(2 * |dx| / x_win + 2 * |dt| / t_win))

/-- Observation box of EGTF: rows with |t_s - t| <= t_win/2 and
|x_s - x| <= x_win/2.  Targets and grid data are rational (the grid is
discrete); the weights are real. -/
def EGTF_box (x t smooth_x_window smooth_t_window : ℚ) (speed_raw_df : List Pt) :
    List Pt :=
  speed_raw_df.filter (fun p =>
    decide (|p.t - t| ≤ smooth_t_window / 2 ∧ |p.x - x| ≤ smooth_x_window / 2))

/-- Sum of the free-flow weights over the observation box. -/
noncomputable def betaFreeSum (x t sxw stw : ℚ) (df : List Pt) : ℝ :=
  ((EGTF_box x t sxw stw df).map
    (fun p => beta_free_flow (x : ℝ) (t : ℝ) (p.x : ℝ) (p.t : ℝ) (sxw : ℝ) (stw : ℝ)
      (-43))).sum

/-- Sum of the congested-flow weights over the observation box. -/
noncomputable def betaCongSum (x t sxw stw : ℚ) (df : List Pt) : ℝ :=
  ((EGTF_box x t sxw stw df).map
    (fun p => beta_cong_flow (x : ℝ) (t : ℝ) (p.x : ℝ) (p.t : ℝ) (sxw : ℝ) (stw : ℝ)
      13)).sum

/-- Weighted numerator sum(beta_free * speed) over the observation box. -/
noncomputable def betaFreeNum (x t sxw stw : ℚ) (df : List Pt) : ℝ :=
  ((EGTF_box x t sxw stw df).map
    (fun p => beta_free_flow (x : ℝ) (t : ℝ) (p.x : ℝ) (p.t : ℝ) (sxw : ℝ) (stw : ℝ)
      (-43) * (p.speed : ℝ))).sum

/-- Weighted numerator sum(beta_cong * speed) over the observation box. -/
noncomputable def betaCongNum (x t sxw stw : ℚ) (df : List Pt) : ℝ :=
  ((EGTF_box x t sxw stw df).map
    (fun p => beta_cong_flow (x : ℝ) (t : ℝ) (p.x : ℝ) (p.t : ℝ) (sxw : ℝ) (stw : ℝ)
      13 * (p.speed : ℝ))).sum

/-- Regime blend of EGTF (ASM.py lines 107-118) as a function of the two
weight sums and the two weighted numerators: both estimates are the
weight-normalized averages when both sums are nonzero and both fall back to
the neutral default 80 otherwise; the sigmoid blend keyed on the more
congested estimate combines them. -/
noncomputable def EGTF_core (Sf Sc Nf Nc : ℝ) : ℝ :=
  let EGTF_v_free := if Sf ≠ 0 ∧ Sc ≠ 0 then Nf / Sf else 80
  let EGTF_v_cong := if Sf ≠ 0 ∧ Sc ≠ 0 then Nc / Sc else 80
  let v := min EGTF_v_free EGTF_v_cong
  let tanh_term := Real.tanh ((36 - v) / 12.43)
  let w := 0.5 * (1 + tanh_term)
  w * EGTF_v_cong + (1 - w) * EGTF_v_free

/-- Embedding of EGTF (ASM.py lines 80-118). -/
noncomputable def EGTF (x t smooth_x_window smooth_t_window : ℚ)
    (speed_raw_df : List Pt) : ℝ :=
  EGTF_core (betaFreeSum x t smooth_x_window smooth_t_window speed_raw_df)
    (betaCongSum x t smooth_x_window smooth_t_window speed_raw_df)
    (betaFreeNum x t smooth_x_window smooth_t_window speed_raw_df)
    (betaCongNum x t smooth_x_window smooth_t_window speed_raw_df)

/-- Column labels of the DataFrame model used for the aliasing claim. -/
inductive ColName where
  | t_index
  | x_index
  | raw_speed
  | tcol
  | xcol
  | speed
deriving DecidableEq

/-- Minimal DataFrame model for the aliasing claim: labelled columns over
rational cells. -/
structure DFrame where
  cols : List ColName
  rows : List (List ℚ)
deriving DecidableEq

instance : Inhabited DFrame := ⟨⟨[], []⟩⟩

/-- Heap of DataFrame objects; Python variables hold references (indices). -/
abbrev Heap : Type := List DFrame

/-- Dereference a DataFrame variable. -/
def heapGet (h : Heap) (r : ℕ) : DFrame := h.getD r default

/-- Overwrite the object a variable refers to. -/
def heapSet (h : Heap) (r : ℕ) (d : DFrame) : Heap := h.set r d

/-- Mutation smooth_vt.columns = [...]: relabels the columns in place. -/
def dfSetCols (d : DFrame) (cs : List ColName) : DFrame := ⟨cs, d.rows⟩

/-- Mutation smooth_vt.x = 63 - smooth_vt.x: in-place update of the x
column. -/
def dfReflectX (d : DFrame) : DFrame :=
  let i := d.cols.indexOf ColName.xcol
  ⟨d.cols, d.rows.map (fun row => row.set i (63 - row.getD i 0))⟩

/-- Embedding with explicit heap of the mutating prefix of gen_all_VT
(virtual_trajectory_generation.py lines 104-107): smooth_vt =
smooth_speed.copy() allocates a fresh object, and the column relabelling and
the x reflection then mutate that fresh object.  The function returns the
heap after those statements together with the reference held by smooth_vt;
the spawn loop that follows only reads. -/
def gen_all_VT_prologue (h : Heap) (smooth_speed : ℕ) : Heap × ℕ :=
  let smooth_vt := h.length
  let h1 := h ++ [heapGet h smooth_speed]
  let h2 := heapSet h1 smooth_vt (dfSetCols (heapGet h1 smooth_vt)
    [ColName.t_index, ColName.x_index, ColName.raw_speed, ColName.tcol, ColName.xcol,
      ColName.speed])
  let h3 := heapSet h2 smooth_vt (dfReflectX (heapGet h2 smooth_vt))
  (h3, smooth_vt)

/- Batteries marks the rational field operations irreducible, which blocks
kernel evaluation of concrete runs; restore the default reducibility locally
so that decide can evaluate the embedded programs on concrete inputs. -/
attribute [local semireducible] Rat.add Rat.mul Rat.inv Rat.sub Rat.ofScientific

theorem pythonRound_intCast (n : ℤ) : pythonRound (n : ℚ) = n := by
  simp [pythonRound]

theorem le_pythonRound (q : ℚ) : q - 1/2 ≤ (pythonRound q : ℚ) := by
  unfold pythonRound
  have hfl : (⌊q⌋ : ℚ) ≤ q := Int.floor_le q
  have hfg : q - 1 < (⌊q⌋ : ℚ) := by
    have := Int.lt_floor_add_one q
    linarith
  by_cases h1 : q - (⌊q⌋ : ℚ) < 1/2
  · simp only [h1, if_true]
    linarith
  · simp only [h1, if_false]
    by_cases h2 : 1/2 < q - (⌊q⌋ : ℚ)
    · simp only [h2, if_true]
      push_cast
      linarith
    · simp only [h2, if_false]
      by_cases h3 : 2 ∣ ⌊q⌋
      · simp only [h3, if_true]
        linarith
      · simp only [h3, if_false]
        push_cast
        linarith

/-- Generic invariant preservation for the while-loop of gen_VT: a predicate
on (accumulated trajectory, current time, current position) that is preserved
by one loop body holds of the returned trajectory, together with the exit
condition of the loop guard. -/
theorem gen_VT_loop_inv (g : Interp) (L : List Pt) (u : ℚ) (v_id : ℤ)
    (P : List Sample → ℚ → ℚ → Prop)
    (hstep : ∀ traj t x win, P traj t x → x < 4.3 →
      P (traj ++ [⟨((pythonRound (t + u) : ℤ) : ℚ), x + u * get_bi_cubic g t x win / 3600,
          get_bi_cubic g t x win, v_id⟩])
        ((pythonRound (t + u) : ℤ) : ℚ) (x + u * get_bi_cubic g t x win / 3600)) :
    ∀ fuel t x win traj out, gen_VT_loop g L u v_id fuel t x win traj = some out →
      P traj t x → ∃ t' x', P out t' x' ∧ ¬ x' < 4.3 := by
  intro fuel
  induction fuel with
  | zero =>
    intro t x win traj out hrun hP
    rw [gen_VT_loop] at hrun
    by_cases hx : x < 4.3
    · simp [hx] at hrun
    · simp [hx] at hrun
      exact ⟨t, x, hrun ▸ hP, hx⟩
  | succ n ih =>
    intro t x win traj out hrun hP
    rw [gen_VT_loop] at hrun
    by_cases hx : x < 4.3
    · simp only [hx, if_true] at hrun
      exact ih _ _ _ _ _ hrun (hstep traj t x win hP hx)
    · simp [hx] at hrun
      exact ⟨t, x, hrun ▸ hP, hx⟩

/-- Only appends: the loop of gen_VT extends the trajectory it is given. -/
theorem gen_VT_loop_prefix (g : Interp) (L : List Pt) (u : ℚ) (v_id : ℤ) :
    ∀ fuel t x win traj out, gen_VT_loop g L u v_id fuel t x win traj = some out →
      ∃ suffix, out = traj ++ suffix := by
  intro fuel
  induction fuel with
  | zero =>
    intro t x win traj out hrun
    rw [gen_VT_loop] at hrun
    by_cases hx : x < 4.3
    · simp [hx] at hrun
    · simp [hx] at hrun
      exact ⟨[], by simp [hrun]⟩
  | succ n ih =>
    intro t x win traj out hrun
    rw [gen_VT_loop] at hrun
    by_cases hx : x < 4.3
    · simp only [hx, if_true] at hrun
      obtain ⟨suffix, hsuf⟩ := ih _ _ _ _ _ hrun
      rw [List.append_assoc] at hsuf
      exact ⟨_, hsuf⟩
    · simp [hx] at hrun
      exact ⟨[], by simp [hrun]⟩

/-- C1 (amended): for every trajectory returned by gen_VT, provided every
interpolated speed is nonnegative and the update rate exceeds 1/2 (as the
default rate 1 does), the space values are monotonically non-decreasing and
the time values strictly increasing across consecutive recorded samples.
Without the provisos the property fails: see C1_counterexample, where one
negative interpolated speed moves the vehicle backwards and an update rate of
1/2 is erased by the round-half-to-even time update. -/
theorem C1_trajectory_monotone (g : Interp) (L : List Pt) (t0 : ℚ) (v_id : ℤ)
    (u x0 : ℚ) (fuel : ℕ) (out : List Sample)
    (hg : ∀ d a b, 0 ≤ g d a b) (hu : 1/2 < u)
    (hrun : gen_VT g t0 v_id L u x0 fuel = some out) :
    List.Chain' (fun s1 s2 => s1.space ≤ s2.space ∧ s1.time < s2.time) out := by
  have hrun' : gen_VT_loop g L u v_id fuel t0 x0 (windowFilter (t0 - 30) L)
      [⟨t0, x0, get_bi_cubic g t0 x0 (windowFilter (t0 - 30) L), v_id⟩] = some out := hrun
  obtain ⟨t', x', ⟨_, hchain⟩, _⟩ :=
    gen_VT_loop_inv g L u v_id
      (fun traj t x => (∃ s, traj.getLast? = some s ∧ s.time = t ∧ s.space = x) ∧
        List.Chain' (fun s1 s2 => s1.space ≤ s2.space ∧ s1.time < s2.time) traj)
      (by
        intro traj t x win hP hx
        obtain ⟨⟨s, hlast, hst, hsx⟩, hchain⟩ := hP
        refine ⟨⟨_, List.getLast?_concat _, rfl, rfl⟩, ?_⟩
        rw [List.chain'_append]
        refine ⟨hchain, List.chain'_singleton _, ?_⟩
        intro p hp q hq
        rw [hlast] at hp
        rw [show p = s from by simpa using hp.symm]
        rw [show q = (⟨((pythonRound (t + u) : ℤ) : ℚ),
            x + u * get_bi_cubic g t x win / 3600, get_bi_cubic g t x win, v_id⟩ : Sample)
          from by simpa using hq.symm]
        have hspd : 0 ≤ get_bi_cubic g t x win := hg _ _ _
        constructor
        · show s.space ≤ x + u * get_bi_cubic g t x win / 3600
          have hst0 : 0 ≤ u * get_bi_cubic g t x win / 3600 :=
            div_nonneg (mul_nonneg (by linarith) hspd) (by norm_num)
          rw [hsx]
          linarith
        · show s.time < ((pythonRound (t + u) : ℤ) : ℚ)
          have := le_pythonRound (t + u)
          rw [hst]
          linarith)
      fuel t0 x0 _ _ out hrun'
      ⟨⟨⟨t0, x0, get_bi_cubic g t0 x0 (windowFilter (t0 - 30) L), v_id⟩, by simp, rfl, rfl⟩,
        List.chain'_singleton _⟩
  exact hchain

/-- C1 (counterexample to the claim as stated): gen_VT run on an interpolant
with one negative speed value and update rate 1/2 returns a trajectory whose
space decreases from 0.32 to 0.27 between the first two samples and whose
time stays at 30 throughout, refuting both monotonicity conjuncts. -/
theorem C1_counterexample :
    ¬ ∀ (g : Interp) (L : List Pt) (t0 : ℚ) (v_id : ℤ) (u x0 : ℚ) (fuel : ℕ)
        (out : List Sample), gen_VT g t0 v_id L u x0 fuel = some out →
        List.Chain' (fun s1 s2 => s1.space ≤ s2.space ∧ s1.time < s2.time) out := by
  intro h
  have hrun : gen_VT (fun _ _ x => if 3/10 ≤ x then -360 else 100000) 30 0 [] (1/2) (8/25) 5 =
      some [⟨30, 8/25, -360, 0⟩, ⟨30, 27/100, -360, 0⟩, ⟨30, 12743/900, 100000, 0⟩] := by
    decide
  exact absurd (h _ _ _ _ _ _ _ _ hrun)
    (by norm_num [List.chain'_cons, List.chain'_singleton])

/-- C1 (witness): the amended theorem applied to a concrete run with a
constant positive interpolated speed and the default update rate 1. -/
theorem C1_trajectory_monotone_witness :
    List.Chain' (fun s1 s2 : Sample => s1.space ≤ s2.space ∧ s1.time < s2.time)
      [⟨30, 8/25, 100000, 0⟩, ⟨31, 6322/225, 100000, 0⟩] :=
  C1_trajectory_monotone (fun _ _ _ => 100000) [] 30 0 1 (8/25) 2
    [⟨30, 8/25, 100000, 0⟩, ⟨31, 6322/225, 100000, 0⟩]
    (fun _ _ _ => by norm_num) (by norm_num) (by decide)

/-- Fuel bound for the loop of gen_VT: when every interpolated speed is at
least v_min > 0, the loop exits within k rounds once 4.3 ≤ x + k steps of
minimal travel, and the final sample records the first position at or beyond
the corridor length, overshooting by less than its own step. -/
theorem gen_VT_loop_term (g : Interp) (L : List Pt) (u : ℚ) (v_id : ℤ) (v_min : ℚ)
    (hg : ∀ d a b, v_min ≤ g d a b) (hu : 0 < u) :
    ∀ (k : ℕ) (t x : ℚ) (win : List Pt) (traj : List Sample),
      (∃ s, traj.getLast? = some s ∧ s.space = x ∧
        (x < 4.3 ∨ x < 4.3 + u * s.speed / 3600)) →
      4.3 ≤ x + k * (u * v_min / 3600) →
      ∃ out, gen_VT_loop g L u v_id k t x win traj = some out ∧
        ∃ s, out.getLast? = some s ∧ 4.3 ≤ s.space ∧ s.space < 4.3 + u * s.speed / 3600 := by
  intro k
  induction k with
  | zero =>
    intro t x win traj hinv hk
    obtain ⟨s, hlast, hsx, hdisj⟩ := hinv
    simp only [Nat.cast_zero, zero_mul, add_zero] at hk
    have hx : ¬ x < 4.3 := not_lt.mpr hk
    rw [gen_VT_loop, if_neg hx]
    refine ⟨traj, rfl, s, hlast, hsx ▸ hk, ?_⟩
    rcases hdisj with h | h
    · exact absurd h hx
    · exact hsx ▸ h
  | succ n ih =>
    intro t x win traj hinv hk
    by_cases hx : x < 4.3
    · rw [gen_VT_loop, if_pos hx]
      have hspd : v_min ≤ get_bi_cubic g t x win := hg _ _ _
      have hδ : u * v_min / 3600 ≤ u * get_bi_cubic g t x win / 3600 := by
        gcongr
      apply ih
      · refine ⟨⟨((pythonRound (t + u) : ℤ) : ℚ), x + u * get_bi_cubic g t x win / 3600,
          get_bi_cubic g t x win, v_id⟩, List.getLast?_concat _, rfl, Or.inr ?_⟩
        simp only
        linarith
      · push_cast at hk ⊢
        linarith
    · obtain ⟨s, hlast, hsx, hdisj⟩ := hinv
      rw [gen_VT_loop, if_neg hx]
      refine ⟨traj, rfl, s, hlast, hsx ▸ not_lt.mp hx, ?_⟩
      rcases hdisj with h | h
      · exact absurd h hx
      · exact hsx ▸ h

/-- C2 (amended): gen_VT terminates, with the final sample's space value at
least the corridor length 4.3 and exceeding it by less than one integration
step's travel u * speed / 3600, provided the interpolated speeds are bounded
below by a positive constant, the update rate is positive, and the start
position lies inside the corridor (the source defaults u = 1, x0 = 0.32 do).
Unconditional termination, as the claim states it, is refuted by
C2_counterexample. -/
theorem C2_termination (g : Interp) (L : List Pt) (t0 : ℚ) (v_id : ℤ) (u x0 v_min : ℚ)
    (hg : ∀ d a b, v_min ≤ g d a b) (hv : 0 < v_min) (hu : 0 < u) (hx0 : x0 < 4.3) :
    ∃ fuel out, gen_VT g t0 v_id L u x0 fuel = some out ∧
      ∃ s, out.getLast? = some s ∧ 4.3 ≤ s.space ∧ s.space < 4.3 + u * s.speed / 3600 := by
  obtain ⟨k, hk⟩ : ∃ k : ℕ, 4.3 ≤ x0 + k * (u * v_min / 3600) := by
    have hδ : 0 < u * v_min / 3600 := by positivity
    obtain ⟨k, hk⟩ := exists_nat_gt ((4.3 - x0) / (u * v_min / 3600))
    refine ⟨k, ?_⟩
    have := (div_lt_iff₀ hδ).mp hk
    linarith
  obtain ⟨out, hout, hfin⟩ := gen_VT_loop_term g L u v_id v_min hg hu k t0 x0
    (windowFilter (t0 - 30) L)
    [⟨t0, x0, get_bi_cubic g t0 x0 (windowFilter (t0 - 30) L), v_id⟩]
    ⟨⟨t0, x0, get_bi_cubic g t0 x0 (windowFilter (t0 - 30) L), v_id⟩, by simp, rfl,
      Or.inl hx0⟩ hk
  exact ⟨k, out, hout, hfin⟩

/-- C2 (witness): the amended termination theorem applied to a constant
100-mph interpolant starting at the default position 0.32. -/
theorem C2_termination_witness :
    ∃ fuel out, gen_VT (fun _ _ _ => 100) 0 0 [] 1 (8/25) fuel = some out ∧
      ∃ s, out.getLast? = some s ∧ (4.3 : ℚ) ≤ s.space ∧
        s.space < 4.3 + 1 * s.speed / 3600 :=
  C2_termination (fun _ _ _ => 100) [] 0 0 1 (8/25) 100
    (fun _ _ _ => le_refl 100) (by norm_num) (by norm_num) (by norm_num)

/-- Helper for the C2 counterexample: with an everywhere-zero interpolated
speed the position never moves from 0.32, so the loop of gen_VT never exits,
whatever the fuel. -/
theorem gen_VT_loop_zero_stuck :
    ∀ (fuel : ℕ) (t : ℚ) (win : List Pt) (traj : List Sample),
      gen_VT_loop (fun _ _ _ => 0) [] 1 0 fuel t (8/25) win traj = none := by
  intro fuel
  induction fuel with
  | zero =>
    intro t win traj
    rw [gen_VT_loop, if_pos (by norm_num : (8 : ℚ)/25 < 4.3)]
  | succ n ih =>
    intro t win traj
    rw [gen_VT_loop, if_pos (by norm_num : (8 : ℚ)/25 < 4.3)]
    simp only [get_bi_cubic]
    norm_num
    exact ih _ _ _

/-- C2 (counterexample to the claim as stated): a call of gen_VT on a speed
field whose interpolated speed is 0 everywhere never terminates, whatever
fuel it is granted. -/
theorem C2_counterexample :
    ¬ ∃ fuel out, gen_VT (fun _ _ _ => 0) 30 0 [] 1 (8/25) fuel = some out := by
  rintro ⟨fuel, out, hout⟩
  have hnone : gen_VT (fun _ _ _ => 0) 30 0 [] 1 (8/25) fuel = none :=
    gen_VT_loop_zero_stuck fuel 30 _ _
  rw [hnone] at hout
  exact Option.noConfusion hout

/-- C9: every sample of a gen_VT trajectory pairs the already-advanced time
and position with the speed evaluated before the advance: consecutive samples
satisfy time' = round(time + u) and space' = space + u * speed' / 3600, so
the speed recorded in sample i+1 is the one used to step away from sample i
(evaluated at sample i's coordinates), and in particular the second sample's
speed always equals the first sample's speed v0. -/
theorem C9_speed_recorded_after_advance (g : Interp) (L : List Pt) (t0 : ℚ) (v_id : ℤ)
    (u x0 : ℚ) (fuel : ℕ) (out : List Sample)
    (hrun : gen_VT g t0 v_id L u x0 fuel = some out) :
    (∀ s0 s1, out.head? = some s0 → out[1]? = some s1 → s1.speed = s0.speed) ∧
    List.Chain' (fun a b => b.time = ((pythonRound (a.time + u) : ℤ) : ℚ) ∧
      b.space = a.space + u * b.speed / 3600) out := by
  have hrun' : gen_VT_loop g L u v_id fuel t0 x0 (windowFilter (t0 - 30) L)
      [⟨t0, x0, get_bi_cubic g t0 x0 (windowFilter (t0 - 30) L), v_id⟩] = some out := hrun
  constructor
  · by_cases hx0 : x0 < 4.3
    · cases fuel with
      | zero =>
        rw [gen_VT_loop, if_pos hx0] at hrun'
        exact Option.noConfusion hrun'
      | succ n =>
        rw [gen_VT_loop] at hrun'
        simp only [hx0, if_true] at hrun'
        obtain ⟨suffix, rfl⟩ := gen_VT_loop_prefix g L u v_id _ _ _ _ _ _ hrun'
        intro s0 s1 h0 h1
        simp only [List.cons_append, List.nil_append, List.head?_cons,
          List.getElem?_cons_succ, List.getElem?_cons_zero, Option.some.injEq] at h0 h1
        rw [← h0, ← h1]
    · have hsome : gen_VT_loop g L u v_id fuel t0 x0 (windowFilter (t0 - 30) L)
          [⟨t0, x0, get_bi_cubic g t0 x0 (windowFilter (t0 - 30) L), v_id⟩] =
          some [⟨t0, x0, get_bi_cubic g t0 x0 (windowFilter (t0 - 30) L), v_id⟩] := by
        cases fuel with
        | zero => rw [gen_VT_loop, if_neg hx0]
        | succ n => rw [gen_VT_loop, if_neg hx0]
      rw [hsome] at hrun'
      obtain rfl : _ = out := Option.some.inj hrun'
      intro s0 s1 h0 h1
      simp at h1
  · obtain ⟨t', x', ⟨_, hchain⟩, _⟩ :=
      gen_VT_loop_inv g L u v_id
        (fun traj t x => (∃ s, traj.getLast? = some s ∧ s.time = t ∧ s.space = x) ∧
          List.Chain' (fun a b => b.time = ((pythonRound (a.time + u) : ℤ) : ℚ) ∧
            b.space = a.space + u * b.speed / 3600) traj)
        (by
          intro traj t x win hP hx
          obtain ⟨⟨s, hlast, hst, hsx⟩, hchain⟩ := hP
          refine ⟨⟨_, List.getLast?_concat _, rfl, rfl⟩, ?_⟩
          rw [List.chain'_append]
          refine ⟨hchain, List.chain'_singleton _, ?_⟩
          intro p hp q hq
          rw [hlast] at hp
          rw [show p = s from by simpa using hp.symm]
          rw [show q = (⟨((pythonRound (t + u) : ℤ) : ℚ),
              x + u * get_bi_cubic g t x win / 3600, get_bi_cubic g t x win, v_id⟩ : Sample)
            from by simpa using hq.symm]
          exact ⟨by rw [hst], by rw [hsx]⟩)
        fuel t0 x0 _ _ out hrun'
        ⟨⟨⟨t0, x0, get_bi_cubic g t0 x0 (windowFilter (t0 - 30) L), v_id⟩, by simp, rfl, rfl⟩,
          List.chain'_singleton _⟩
    exact hchain

/-- C9 (witness): a concrete run in which the interpolated speed changes
after the first step, showing the one-sample lag of the recorded speeds. -/
theorem C9_speed_recorded_after_advance_witness :
    (∀ s0 s1, ([⟨30, 8/25, 7200, 0⟩, ⟨31, 58/25, 7200, 0⟩, ⟨32, 83/25, 3600, 0⟩,
        ⟨33, 108/25, 3600, 0⟩] : List Sample).head? = some s0 →
      ([⟨30, 8/25, 7200, 0⟩, ⟨31, 58/25, 7200, 0⟩, ⟨32, 83/25, 3600, 0⟩,
        ⟨33, 108/25, 3600, 0⟩] : List Sample)[1]? = some s1 → s1.speed = s0.speed) ∧
    List.Chain' (fun a b : Sample => b.time = ((pythonRound (a.time + 1) : ℤ) : ℚ) ∧
      b.space = a.space + 1 * b.speed / 3600)
      [⟨30, 8/25, 7200, 0⟩, ⟨31, 58/25, 7200, 0⟩, ⟨32, 83/25, 3600, 0⟩,
        ⟨33, 108/25, 3600, 0⟩] :=
  C9_speed_recorded_after_advance (fun _ t _ => if t ≤ 30 then 7200 else 3600) [] 30 0 1
    (8/25) 4
    [⟨30, 8/25, 7200, 0⟩, ⟨31, 58/25, 7200, 0⟩, ⟨32, 83/25, 3600, 0⟩, ⟨33, 108/25, 3600, 0⟩]
    (by decide)

/-- Interchange of the sliding window and the interpolation box: when the box
around the target lies inside the window, filtering by the window first does
not change the box. -/
theorem bi_cubic_box_windowFilter (t x a : ℚ) (L : List Pt)
    (h1 : a + 8 < t) (h2 : t + 8 ≤ a + 900) :
    bi_cubic_box t x (windowFilter a L) = bi_cubic_box t x L := by
  unfold bi_cubic_box windowFilter
  rw [List.filter_filter]
  apply List.filter_congr
  intro p _
  by_cases hb : |p.t - t| ≤ 8 ∧ |p.x - x| ≤ 0.04
  · have hbt := hb.1
    rw [abs_le] at hbt
    have hw : p.t ≤ a + 900 ∧ a < p.t :=
      ⟨by linarith [hbt.1, hbt.2], by linarith [hbt.1, hbt.2]⟩
    simp [hb, hw]
  · simp [hb]

/-- Upper bound hidden in the window invariant: some refresh time occurs in
any 300 consecutive seconds, so the current time can never be a full 330 s
past the window start. -/
theorem WinInv.le_bound {ti ai : ℤ} (h : WinInv ti ai) : ti ≤ ai + 329 := by
  obtain ⟨h1, h2, h3⟩ := h
  by_contra hlt
  push_neg at hlt
  exact h3 (ai + 30 + (300 - ai % 300)) (by omega) (by omega) (by omega)

/-- Preservation of the window invariant over a non-refresh step at update
rate 1. -/
theorem WinInv.step {ti ai : ℤ} (h : WinInv ti ai)
    (href : ¬ (300 : ℤ) ∣ (ti + 1 - 30)) : WinInv (ti + 1) ai := by
  have hb := h.le_bound
  obtain ⟨h1, h2, h3⟩ := h
  refine ⟨by omega, by omega, ?_⟩
  intro s hs1 hs2
  rcases (by omega : s ≤ ti ∨ s = ti + 1) with hlt | rfl
  · exact h3 s hs1 hlt
  · exact href

/-- Characterization of the refresh test on integral times: the Python test
(t - 30) % 300 == 0 holds exactly when 300 divides t - 30. -/
theorem isRefresh_intCast (n : ℤ) : isRefresh (n : ℚ) = true ↔ (300 : ℤ) ∣ (n - 30) := by
  unfold isRefresh
  rw [decide_eq_true_iff]
  constructor
  · intro h
    refine ⟨⌊((n : ℚ) - 30) / 300⌋, ?_⟩
    exact_mod_cast h
  · rintro ⟨k, hk⟩
    have hq : (n : ℚ) - 30 = 300 * (k : ℚ) := by exact_mod_cast hk
    rw [hq]
    congr 1
    have h300 : ((300 : ℚ) * k) / 300 = (k : ℚ) := mul_div_cancel_left₀ _ (by norm_num)
    rw [h300, Int.floor_intCast]

/-- Step-by-step agreement of the windowed loop of gen_VT with the
full-requery baseline loop at update rate 1, under the window invariant. -/
theorem gen_VT_loop_window_eq (g : Interp) (L : List Pt) (v_id : ℤ) :
    ∀ (fuel : ℕ) (ti ai : ℤ) (x : ℚ) (traj : List Sample), WinInv ti ai →
      gen_VT_loop g L 1 v_id fuel (ti : ℚ) x (windowFilter (ai : ℚ) L) traj =
      gen_VT_baseline_loop g L 1 v_id fuel (ti : ℚ) x traj := by
  intro fuel
  induction fuel with
  | zero =>
    intro ti ai x traj hinv
    rw [gen_VT_loop, gen_VT_baseline_loop]
  | succ n ih =>
    intro ti ai x traj hinv
    rw [gen_VT_loop, gen_VT_baseline_loop]
    by_cases hx : x < 4.3
    · simp only [hx, if_true]
      have hbox : bi_cubic_box (ti : ℚ) x (windowFilter (ai : ℚ) L) =
          bi_cubic_box (ti : ℚ) x L := by
        apply bi_cubic_box_windowFilter
        · have hz : ai + 8 < ti := by
            have := hinv.1
            omega
          exact_mod_cast hz
        · have hz : ti + 8 ≤ ai + 900 := by
            have := hinv.2.1
            omega
          exact_mod_cast hz
      have hspd : get_bi_cubic g (ti : ℚ) x (windowFilter (ai : ℚ) L) =
          get_bi_cubic g (ti : ℚ) x L := by
        unfold get_bi_cubic
        rw [hbox]
      rw [hspd]
      have ht' : ((pythonRound ((ti : ℚ) + 1) : ℤ) : ℚ) = ((ti + 1 : ℤ) : ℚ) := by
        rw [show ((ti : ℚ) + 1) = ((ti + 1 : ℤ) : ℚ) by push_cast; ring, pythonRound_intCast]
      rw [ht']
      by_cases hr : isRefresh ((ti + 1 : ℤ) : ℚ) = true
      · rw [if_pos hr]
        rw [show ((ti + 1 : ℤ) : ℚ) - 30 = ((ti + 1 - 30 : ℤ) : ℚ) by push_cast; ring]
        apply ih
        refine ⟨by omega, by omega, ?_⟩
        intro s hs1 hs2 _
        omega
      · rw [if_neg hr]
        apply ih
        apply hinv.step
        intro hdvd
        exact hr ((isRefresh_intCast (ti + 1)).mpr hdvd)
    · simp only [hx, if_false]

/-- C5 (amended): at the default update rate 1 and an integral start time,
gen_VT with its sliding-window cache produces exactly the same trajectory as
the baseline that requeries the full SpeedField at every step, for every
field, interpolator, start position and fuel.  Quantified over all update
rates the claim fails: C5_counterexample gives a rate at which every refresh
time is skipped over, the stale window starves the interpolation box, and the
two integrators return different trajectories. -/
theorem C5_window_cache_refinement (g : Interp) (L : List Pt) (t0 : ℤ) (v_id : ℤ)
    (x0 : ℚ) (fuel : ℕ) :
    gen_VT g (t0 : ℚ) v_id L 1 x0 fuel = gen_VT_baseline g (t0 : ℚ) v_id L 1 x0 fuel := by
  have hv0 : get_bi_cubic g (t0 : ℚ) x0 (windowFilter ((t0 : ℚ) - 30) L) =
      get_bi_cubic g (t0 : ℚ) x0 L := by
    unfold get_bi_cubic
    rw [bi_cubic_box_windowFilter (t0 : ℚ) x0 ((t0 : ℚ) - 30) L (by linarith) (by linarith)]
  have h1 : gen_VT g (t0 : ℚ) v_id L 1 x0 fuel =
      gen_VT_loop g L 1 v_id fuel (t0 : ℚ) x0 (windowFilter ((t0 : ℚ) - 30) L)
        [⟨(t0 : ℚ), x0, get_bi_cubic g (t0 : ℚ) x0 (windowFilter ((t0 : ℚ) - 30) L), v_id⟩] :=
    rfl
  have h2 : gen_VT_baseline g (t0 : ℚ) v_id L 1 x0 fuel =
      gen_VT_baseline_loop g L 1 v_id fuel (t0 : ℚ) x0
        [⟨(t0 : ℚ), x0, get_bi_cubic g (t0 : ℚ) x0 L, v_id⟩] := rfl
  rw [h1, h2, hv0, show ((t0 : ℚ) - 30) = ((t0 - 30 : ℤ) : ℚ) by push_cast; ring]
  exact gen_VT_loop_window_eq g L v_id fuel t0 (t0 - 30) x0 _
    ⟨by omega, by omega, by intro s hs1 hs2 _; omega⟩

/-- C5 (counterexample to the claim as stated): at update rate 200 from start
time 31 no visited time satisfies (t - 30) % 300 == 0, so the window set at
spawn is never refreshed; once the simulated time passes the window's end the
windowed integrator sees an empty interpolation box while the full-requery
baseline still sees the field point at t = 1030, and the two trajectories
differ. -/
theorem C5_counterexample :
    gen_VT (fun d _ _ => 10 + 990 * (d.length : ℚ)) 31 0 [⟨1030, 31/10, 5⟩] 200 (8/25) 10 ≠
    gen_VT_baseline (fun d _ _ => 10 + 990 * (d.length : ℚ)) 31 0 [⟨1030, 31/10, 5⟩] 200
      (8/25) 10 := by
  decide

/-- Tagging invariant of gen_VT: a returned trajectory is nonempty and all of
its samples carry the vehicle id the run was given. -/
theorem gen_VT_v_id_all (g : Interp) (L : List Pt) (t0 : ℚ) (v_id : ℤ) (u x0 : ℚ)
    (fuel : ℕ) (out : List Sample) (hrun : gen_VT g t0 v_id L u x0 fuel = some out) :
    out ≠ [] ∧ ∀ s ∈ out, s.v_id = v_id := by
  have hrun' : gen_VT_loop g L u v_id fuel t0 x0 (windowFilter (t0 - 30) L)
      [⟨t0, x0, get_bi_cubic g t0 x0 (windowFilter (t0 - 30) L), v_id⟩] = some out := hrun
  obtain ⟨t', x', hP, _⟩ :=
    gen_VT_loop_inv g L u v_id (fun traj _ _ => traj ≠ [] ∧ ∀ s ∈ traj, s.v_id = v_id)
      (by
        intro traj t x win hP hx
        refine ⟨by simp, ?_⟩
        intro s hs
        rcases List.mem_append.mp hs with hs | hs
        · exact hP.2 s hs
        · rw [List.mem_singleton.mp hs])
      fuel t0 x0 _ _ out hrun'
      ⟨by simp, by
        intro s hs
        rw [List.mem_singleton.mp hs]⟩
  exact hP

/-- Vehicle ids appearing in the fleet built by the spawn loop of gen_all_VT:
an id occurs among the concatenated samples exactly when it is
int(time / frequency) for one of the remaining spawn times. -/
theorem gen_all_VT_go_ids (g : Interp) (sv : List Pt) (freq : ℕ) (u : ℚ) (fuel : ℕ) :
    ∀ (times : List ℕ) (vts : List (List Sample)),
      gen_all_VT_go g sv freq u fuel times = some vts →
      ∀ k : ℤ, (∃ s ∈ vts.flatten, s.v_id = k) ↔
        ∃ time ∈ times, ((time / freq : ℕ) : ℤ) = k := by
  intro times
  induction times with
  | nil =>
    intro vts h k
    obtain rfl : ([] : List (List Sample)) = vts := Option.some.inj h
    simp
  | cons time rest ih =>
    intro vts h k
    rw [gen_all_VT_go] at h
    revert h
    cases hVT : gen_VT g (time : ℚ) ((time / freq : ℕ) : ℤ) sv u 0.32 fuel with
    | none => intro h; exact absurd h (by simp)
    | some vt =>
      cases hgo : gen_all_VT_go g sv freq u fuel rest with
      | none => intro h; exact absurd h (by simp)
      | some vts' =>
        intro h
        obtain rfl : vt.map reflectSample :: vts' = vts := by simpa using h
        obtain ⟨hne, hids⟩ := gen_VT_v_id_all g sv (time : ℚ) _ u 0.32 fuel vt hVT
        constructor
        · rintro ⟨s, hs, rfl⟩
          rw [List.flatten_cons, List.mem_append] at hs
          rcases hs with hs | hs
          · obtain ⟨s0, hs0, rfl⟩ := List.mem_map.mp hs
            exact ⟨time, List.mem_cons_self _ _, (hids s0 hs0).symm⟩
          · obtain ⟨time', ht', hid⟩ := (ih vts' hgo _).mp ⟨s, hs, rfl⟩
            exact ⟨time', List.mem_cons_of_mem _ ht', hid⟩
        · rintro ⟨time', ht', rfl⟩
          rcases List.mem_cons.mp ht' with rfl | ht'
          · obtain ⟨s0, hs0⟩ := List.exists_mem_of_ne_nil vt hne
            refine ⟨reflectSample s0, ?_, ?_⟩
            · rw [List.flatten_cons, List.mem_append]
              exact Or.inl (List.mem_map_of_mem _ hs0)
            · exact hids s0 hs0
          · obtain ⟨s, hs, hid⟩ := (ih vts' hgo _).mpr ⟨time', ht', rfl⟩
            refine ⟨s, ?_, hid⟩
            rw [List.flatten_cons, List.mem_append]
            exact Or.inr hs

/-- C8: with frequency 300 and hour 1, gen_all_VT spawns exactly
floor((3600 - 120 - 30)/300) + 1 = 12 vehicles, one per spawn time in the
arithmetic progression from 30 to 3330 with step 300, and the vehicle ids
appearing in the generated fleet are exactly int(time / 300) for those spawn
times, that is 0 through 11. -/
theorem C8_fleet_spawn_count :
    spawnTimes 300 1 = [30, 330, 630, 930, 1230, 1530, 1830, 2130, 2430, 2730, 3030,
      3330] ∧
    (spawnTimes 300 1).length = (3600 - 120 - 30) / 300 + 1 ∧
    (spawnTimes 300 1).length = 12 ∧
    (spawnTimes 300 1).map (fun time => ((time / 300 : ℕ) : ℤ)) =
      [0, 1, 2, 3, 4, 5, 6, 7, 8, 9, 10, 11] ∧
    ∀ (g : Interp) (smooth : List Pt) (fuel : ℕ) (out : List Sample),
      gen_all_VT g smooth 300 1 1 fuel = some out →
      ∀ k : ℤ, (∃ s ∈ out, s.v_id = k) ↔
        k ∈ ([0, 1, 2, 3, 4, 5, 6, 7, 8, 9, 10, 11] : List ℤ) := by
  refine ⟨by decide, by decide, by decide, by decide, ?_⟩
  intro g smooth fuel out hrun k
  unfold gen_all_VT at hrun
  obtain ⟨vts, hgo, hout⟩ := Option.map_eq_some'.mp hrun
  rw [← hout]
  rw [gen_all_VT_go_ids g (smooth.map reflectPt) 300 (pythonRound2 (1 / 1)) fuel
    (spawnTimes 300 1) vts hgo k]
  rw [show spawnTimes 300 1 = [30, 330, 630, 930, 1230, 1530, 1830, 2130, 2430, 2730,
    3030, 3330] from by decide]
  simp only [List.mem_cons, List.not_mem_nil, or_false, exists_eq_or_imp,
    exists_eq_left]
  norm_num
  omega

/-- C8 (witness): the fleet-id equivalence applied to a concrete successful
run of gen_all_VT over an empty field with a constant interpolant. -/
theorem C8_fleet_spawn_count_witness :
    (∃ s ∈ ([⟨30, 1567/25, 100000, 0⟩, ⟨31, 7853/225, 100000, 0⟩,
        ⟨330, 1567/25, 100000, 1⟩, ⟨331, 7853/225, 100000, 1⟩,
        ⟨630, 1567/25, 100000, 2⟩, ⟨631, 7853/225, 100000, 2⟩,
        ⟨930, 1567/25, 100000, 3⟩, ⟨931, 7853/225, 100000, 3⟩,
        ⟨1230, 1567/25, 100000, 4⟩, ⟨1231, 7853/225, 100000, 4⟩,
        ⟨1530, 1567/25, 100000, 5⟩, ⟨1531, 7853/225, 100000, 5⟩,
        ⟨1830, 1567/25, 100000, 6⟩, ⟨1831, 7853/225, 100000, 6⟩,
        ⟨2130, 1567/25, 100000, 7⟩, ⟨2131, 7853/225, 100000, 7⟩,
        ⟨2430, 1567/25, 100000, 8⟩, ⟨2431, 7853/225, 100000, 8⟩,
        ⟨2730, 1567/25, 100000, 9⟩, ⟨2731, 7853/225, 100000, 9⟩,
        ⟨3030, 1567/25, 100000, 10⟩, ⟨3031, 7853/225, 100000, 10⟩,
        ⟨3330, 1567/25, 100000, 11⟩, ⟨3331, 7853/225, 100000, 11⟩] : List Sample),
      s.v_id = (5 : ℤ)) ↔
    (5 : ℤ) ∈ ([0, 1, 2, 3, 4, 5, 6, 7, 8, 9, 10, 11] : List ℤ) :=
  C8_fleet_spawn_count.2.2.2.2 (fun _ _ _ => 100000) [] 2
    [⟨30, 1567/25, 100000, 0⟩, ⟨31, 7853/225, 100000, 0⟩,
        ⟨330, 1567/25, 100000, 1⟩, ⟨331, 7853/225, 100000, 1⟩,
        ⟨630, 1567/25, 100000, 2⟩, ⟨631, 7853/225, 100000, 2⟩,
        ⟨930, 1567/25, 100000, 3⟩, ⟨931, 7853/225, 100000, 3⟩,
        ⟨1230, 1567/25, 100000, 4⟩, ⟨1231, 7853/225, 100000, 4⟩,
        ⟨1530, 1567/25, 100000, 5⟩, ⟨1531, 7853/225, 100000, 5⟩,
        ⟨1830, 1567/25, 100000, 6⟩, ⟨1831, 7853/225, 100000, 6⟩,
        ⟨2130, 1567/25, 100000, 7⟩, ⟨2131, 7853/225, 100000, 7⟩,
        ⟨2430, 1567/25, 100000, 8⟩, ⟨2431, 7853/225, 100000, 8⟩,
        ⟨2730, 1567/25, 100000, 9⟩, ⟨2731, 7853/225, 100000, 9⟩,
        ⟨3030, 1567/25, 100000, 10⟩, ⟨3031, 7853/225, 100000, 10⟩,
        ⟨3330, 1567/25, 100000, 11⟩, ⟨3331, 7853/225, 100000, 11⟩]
    (by decide) 5

/-- C10: gen_all_VT leaves the caller's smooth_speed DataFrame unchanged: the
copy() allocates a fresh object and the column relabelling and the spatial
reflection x to 63 - x mutate only that private copy, so after the mutating
prologue the object behind the caller's reference is exactly what it was. -/
theorem C10_input_frame_unchanged (h : Heap) (r : ℕ) (hr : r < h.length) :
    heapGet (gen_all_VT_prologue h r).1 r = heapGet h r := by
  unfold gen_all_VT_prologue heapSet heapGet
  have hne : h.length ≠ r := Nat.ne_of_gt hr
  rw [List.getD_eq_getElem?_getD, List.getD_eq_getElem?_getD,
    List.getElem?_set_ne hne, List.getElem?_set_ne hne,
    List.getElem?_append_left hr]

/-- C10 (witness): the frame theorem applied to a concrete one-frame heap. -/
theorem C10_input_frame_unchanged_witness :
    heapGet (gen_all_VT_prologue [⟨[ColName.xcol], [[2]]⟩] 0).1 0 =
      heapGet [⟨[ColName.xcol], [[2]]⟩] 0 :=
  C10_input_frame_unchanged [⟨[ColName.xcol], [[2]]⟩] 0 (by decide)

/-- Bounds of the hyperbolic tangent used by the sigmoid blend: tanh lies
strictly between -1 and 1. -/
theorem tanh_mem_Ioo (y : ℝ) : -1 < Real.tanh y ∧ Real.tanh y < 1 := by
  rw [Real.tanh_eq_sinh_div_cosh]
  have hc : 0 < Real.cosh y := Real.cosh_pos y
  have hs : Real.sinh y + Real.cosh y = Real.exp y := Real.sinh_add_cosh y
  have hd : Real.cosh y - Real.sinh y = Real.exp (-y) := Real.cosh_sub_sinh y
  have he : 0 < Real.exp y := Real.exp_pos y
  have he' : 0 < Real.exp (-y) := Real.exp_pos (-y)
  constructor
  · rw [lt_div_iff₀ hc]
    linarith
  · rw [div_lt_iff₀ hc]
    linarith

/-- Common range fact for the anisotropic exponential kernel of ASM.py. -/
theorem beta_weight_range (x t x_s t_s x_win t_win c : ℝ)
    (hx : 0 < x_win) (ht : 0 < t_win) :
    0 < beta_free_flow x t x_s t_s x_win t_win c ∧
    beta_free_flow x t x_s t_s x_win t_win c ≤ 1 ∧
    (beta_free_flow x t x_s t_s x_win t_win c = 1 ↔
      x = x_s ∧ t - t_s - 3600 * (x - x_s) / c = 0) := by
  unfold beta_free_flow
  have hA : 0 ≤ 2 * |x - x_s| / x_win := by positivity
  have hB : 0 ≤ 2 * |t - t_s - 3600 * (x - x_s) / c| / t_win := by positivity
  refine ⟨Real.exp_pos _, ?_, ?_⟩
  · rw [Real.exp_le_one_iff]
    linarith
  · rw [Real.exp_eq_one_iff, neg_eq_zero]
    constructor
    · intro h
      have hA0 : 2 * |x - x_s| / x_win = 0 := by linarith
      have hB0 : 2 * |t - t_s - 3600 * (x - x_s) / c| / t_win = 0 := by linarith
      have habsx : |x - x_s| = 0 := by
        rcases div_eq_zero_iff.mp hA0 with h2 | h2
        · have := abs_nonneg (x - x_s)
          linarith
        · exact absurd h2 (ne_of_gt hx)
      have habst : |t - t_s - 3600 * (x - x_s) / c| = 0 := by
        rcases div_eq_zero_iff.mp hB0 with h2 | h2
        · have := abs_nonneg (t - t_s - 3600 * (x - x_s) / c)
          linarith
        · exact absurd h2 (ne_of_gt ht)
      exact ⟨sub_eq_zero.mp (abs_eq_zero.mp habsx), abs_eq_zero.mp habst⟩
    · rintro ⟨h1, h2⟩
      rw [h2, h1]
      simp

/-- Identity of the two kernel bodies: the congested weight is the free-flow
formula evaluated at the congested characteristic speed. -/
theorem beta_cong_flow_eq (x t x_s t_s x_win t_win c : ℝ) :
    beta_cong_flow x t x_s t_s x_win t_win c =
      beta_free_flow x t x_s t_s x_win t_win c := rfl

/-- C6: for all real inputs with positive window sizes, both kernel weight
functions (at their source default characteristic speeds -43 and 13) return a
weight in (0, 1], and the weight is 1 exactly when the target and the
observation coincide in space (x = x_s) and in shifted time
(t - t_s - 3600 (x - x_s)/c = 0). -/
theorem C6_kernel_weight_range (x t x_s t_s x_win t_win : ℝ)
    (hx : 0 < x_win) (ht : 0 < t_win) :
    (0 < beta_free_flow x t x_s t_s x_win t_win (-43) ∧
      beta_free_flow x t x_s t_s x_win t_win (-43) ≤ 1 ∧
      (beta_free_flow x t x_s t_s x_win t_win (-43) = 1 ↔
        x = x_s ∧ t - t_s - 3600 * (x - x_s) / (-43) = 0)) ∧
    (0 < beta_cong_flow x t x_s t_s x_win t_win 13 ∧
      beta_cong_flow x t x_s t_s x_win t_win 13 ≤ 1 ∧
      (beta_cong_flow x t x_s t_s x_win t_win 13 = 1 ↔
        x = x_s ∧ t - t_s - 3600 * (x - x_s) / 13 = 0)) := by
  refine ⟨beta_weight_range x t x_s t_s x_win t_win (-43) hx ht, ?_⟩
  rw [beta_cong_flow_eq]
  exact beta_weight_range x t x_s t_s x_win t_win 13 hx ht

/-- C6 (witness): the kernel-range theorem at the coincident target and
observation with unit windows. -/
theorem C6_kernel_weight_range_witness :
    (0 < beta_free_flow 0 0 0 0 1 1 (-43) ∧
      beta_free_flow 0 0 0 0 1 1 (-43) ≤ 1 ∧
      (beta_free_flow 0 0 0 0 1 1 (-43) = 1 ↔
        (0 : ℝ) = 0 ∧ (0 : ℝ) - 0 - 3600 * (0 - 0) / (-43) = 0)) ∧
    (0 < beta_cong_flow 0 0 0 0 1 1 13 ∧
      beta_cong_flow 0 0 0 0 1 1 13 ≤ 1 ∧
      (beta_cong_flow 0 0 0 0 1 1 13 = 1 ↔
        (0 : ℝ) = 0 ∧ (0 : ℝ) - 0 - 3600 * (0 - 0) / 13 = 0)) :=
  C6_kernel_weight_range 0 0 0 0 1 1 (by norm_num) (by norm_num)

/-- C4: a target whose restricted observation box is empty makes both regime
weight sums zero, both estimates default to 80, and EGTF returns exactly 80,
whatever the blend weight evaluates to. -/
theorem C4_empty_box_returns_80 (x t sxw stw : ℚ) (df : List Pt)
    (hbox : EGTF_box x t sxw stw df = []) : EGTF x t sxw stw df = 80 := by
  unfold EGTF betaFreeSum betaCongSum betaFreeNum betaCongNum
  rw [hbox]
  simp only [List.map_nil, List.sum_nil]
  unfold EGTF_core
  have hcond : ¬ (((0 : ℝ) ≠ 0) ∧ ((0 : ℝ) ≠ 0)) := by simp
  simp only [if_neg hcond, min_self]
  ring

/-- C4 (witness): EGTF at a target whose box excludes the only observation. -/
theorem C4_empty_box_returns_80_witness :
    EGTF 0 0 1 1 [⟨100, 100, 50⟩] = 80 :=
  C4_empty_box_returns_80 0 0 1 1 [⟨100, 100, 50⟩] (by decide)

/-- C3 (counterexample to the claim as stated): when the free-flow sum is 0
while the congested sum is 1 with weighted speed 20, the code returns the
double-default blend 80, whereas the claim prescribes blending the congested
average 20 with the default 80, which is strictly below 80. -/
theorem C3_counterexample :
    EGTF_core 0 1 0 20 = 80 ∧
    0.5 * (1 + Real.tanh ((36 - min (80 : ℝ) 20) / 12.43)) * 20 +
      (1 - 0.5 * (1 + Real.tanh ((36 - min (80 : ℝ) 20) / 12.43))) * 80 < 80 := by
  constructor
  · unfold EGTF_core
    rw [if_neg (by simp), if_neg (by simp)]
    ring
  · have hmin : min (80 : ℝ) 20 = 20 := by norm_num
    rw [hmin]
    have h := (tanh_mem_Ioo ((36 - (20 : ℝ)) / 12.43)).1
    nlinarith [h]

/-- C3 (amended): whenever at least one regime weight sum is zero — the code
tests both sums and treats the cases identically — EGTF falls back to the
neutral default 80 for BOTH estimates, not only for the regime whose estimate
could not be computed, and the blend returns exactly 80. -/
theorem C3_zero_sum_both_default (Sf Sc Nf Nc : ℝ) (h : Sf = 0 ∨ Sc = 0) :
    EGTF_core Sf Sc Nf Nc = 80 := by
  unfold EGTF_core
  have hcond : ¬ (Sf ≠ 0 ∧ Sc ≠ 0) := by
    rcases h with h | h
    · intro hc
      exact hc.1 h
    · intro hc
      exact hc.2 h
  rw [if_neg hcond, if_neg hcond]
  ring

/-- C3 (witness): the amended fallback theorem at the counterexample's sums. -/
theorem C3_zero_sum_both_default_witness : EGTF_core 0 1 0 20 = 80 :=
  C3_zero_sum_both_default 0 1 0 20 (Or.inl rfl)

/-- Convexity of the blend of EGTF: with both sums positive the result is a
convex combination of the two weight-normalized averages. -/
theorem EGTF_core_between (Sf Sc Nf Nc : ℝ) (hf : 0 < Sf) (hc : 0 < Sc) :
    min (Nf / Sf) (Nc / Sc) ≤ EGTF_core Sf Sc Nf Nc ∧
      EGTF_core Sf Sc Nf Nc ≤ max (Nf / Sf) (Nc / Sc) := by
  unfold EGTF_core
  have hcond : Sf ≠ 0 ∧ Sc ≠ 0 := ⟨ne_of_gt hf, ne_of_gt hc⟩
  rw [if_pos hcond, if_pos hcond]
  set vf := Nf / Sf with hvf
  set vc := Nc / Sc with hvc
  obtain ⟨h1, h2⟩ := tanh_mem_Ioo ((36 - min vf vc) / 12.43)
  set τ := Real.tanh ((36 - min vf vc) / 12.43) with hτ
  have hw0 : 0 ≤ 0.5 * (1 + τ) := by linarith
  have hw1 : 0.5 * (1 + τ) ≤ 1 := by linarith
  have hminf : min vf vc ≤ vf := min_le_left _ _
  have hminc : min vf vc ≤ vc := min_le_right _ _
  have hmaxf : vf ≤ max vf vc := le_max_left _ _
  have hmaxc : vc ≤ max vf vc := le_max_right _ _
  constructor
  · have e1 : 0 ≤ 0.5 * (1 + τ) * (vc - min vf vc) := mul_nonneg hw0 (by linarith)
    have e2 : 0 ≤ (1 - 0.5 * (1 + τ)) * (vf - min vf vc) :=
      mul_nonneg (by linarith) (by linarith)
    nlinarith [e1, e2]
  · have e1 : 0 ≤ 0.5 * (1 + τ) * (max vf vc - vc) := mul_nonneg hw0 (by linarith)
    have e2 : 0 ≤ (1 - 0.5 * (1 + τ)) * (max vf vc - vf) :=
      mul_nonneg (by linarith) (by linarith)
    nlinarith [e1, e2]

/-- C7: for every target point at which both regime weight sums are strictly
positive, the EGTF value lies between the two weight-normalized average
speeds v_free and v_cong, inclusive. -/
theorem C7_blend_between_averages (x t sxw stw : ℚ) (df : List Pt)
    (hf : 0 < betaFreeSum x t sxw stw df) (hc : 0 < betaCongSum x t sxw stw df) :
    min (betaFreeNum x t sxw stw df / betaFreeSum x t sxw stw df)
        (betaCongNum x t sxw stw df / betaCongSum x t sxw stw df) ≤
      EGTF x t sxw stw df ∧
    EGTF x t sxw stw df ≤
      max (betaFreeNum x t sxw stw df / betaFreeSum x t sxw stw df)
        (betaCongNum x t sxw stw df / betaCongSum x t sxw stw df) := by
  unfold EGTF
  exact EGTF_core_between _ _ _ _ hf hc

/-- C7 (witness): the blend bound at a single-observation box, where both
weight sums are single positive exponentials. -/
theorem C7_blend_between_averages_witness :
    min (betaFreeNum 0 0 1 1 [⟨0, 0, 60⟩] / betaFreeSum 0 0 1 1 [⟨0, 0, 60⟩])
        (betaCongNum 0 0 1 1 [⟨0, 0, 60⟩] / betaCongSum 0 0 1 1 [⟨0, 0, 60⟩]) ≤
      EGTF 0 0 1 1 [⟨0, 0, 60⟩] ∧
    EGTF 0 0 1 1 [⟨0, 0, 60⟩] ≤
      max (betaFreeNum 0 0 1 1 [⟨0, 0, 60⟩] / betaFreeSum 0 0 1 1 [⟨0, 0, 60⟩])
        (betaCongNum 0 0 1 1 [⟨0, 0, 60⟩] / betaCongSum 0 0 1 1 [⟨0, 0, 60⟩]) :=
  C7_blend_between_averages 0 0 1 1 [⟨0, 0, 60⟩]
    (by
      unfold betaFreeSum EGTF_box
      norm_num [List.filter]
      exact Real.exp_pos _)
    (by
      unfold betaCongSum EGTF_box
      norm_num [List.filter]
      exact Real.exp_pos _)

end VTTools
